import Mathlib

/-!
Shallow embedding of the racing-game core (src/game/engine.ts,
src/components/RacingGame.tsx of the richer feature tier) over exact
rational arithmetic, together with proofs settling the frozen claims
about the simulation loop, collision test, lane-change AI, player and
road updates, and the procedural audio scheduler.

JavaScript numbers are modelled as `ℚ`; `Math.abs` is `mathAbs`;
`Math.random()` draws are explicit parameters (`RandIn`); reference
identity of entities (the `obs === this` filter) is modelled by handing
each update the bounds of the *other* live entities.
-/

namespace Racing

/-! ### Geometry (engine.ts `GameObject.getBounds` / `checkCollision`) -/

/-- The rectangle view returned by `GameObject.getBounds()`:
`{left, right, top, bottom, width, height}` with `right = x + width`,
`bottom = y + height`. -/
structure Bounds where
  left : ℚ
  right : ℚ
  top : ℚ
  bottom : ℚ
  width : ℚ
  height : ℚ
deriving DecidableEq, Repr

/-- `Math.abs` on rationals. -/
def mathAbs (q : ℚ) : ℚ := if q < 0 then -q else q

/-- `GameObject.checkCollision` (engine.ts lines 67-77): the receiver's
bounds are `r1`, the argument's bounds are `r2`; returns
`!(r2.left > r1.right || r2.right < r1.left || r2.top > r1.bottom || r2.bottom < r1.top)`. -/
def checkCollision (r1 r2 : Bounds) : Bool :=
  !(decide (r2.left > r1.right) || decide (r2.right < r1.left) ||
    decide (r2.top > r1.bottom) || decide (r2.bottom < r1.top))

/-! ### Input and context (types.ts) -/

/-- `InputKeys` from types.ts. -/
structure InputKeys where
  left : Bool
  right : Bool
deriving DecidableEq, Repr

/-- `GameContext` from types.ts.  The source field `obstacles` carries the
full live-entity list and `tryChangeLane` filters out the receiver by the
reference test `obs === this`; here `others` carries the bounds of the
entities other than the receiver, i.e. the list after that filter. -/
structure GameContext where
  canvasWidth : ℚ
  canvasHeight : ℚ
  speedMultiplier : ℚ
  keys : InputKeys
  others : List Bounds
deriving DecidableEq

/-! ### PlayerCar (engine.ts lines 89-117) -/

/-- The mutable state of `PlayerCar`: position, fixed dimensions and the
constant `speed = 300` set in the constructor. -/
structure PlayerState where
  x : ℚ
  y : ℚ
  width : ℚ
  height : ℚ
  speed : ℚ
deriving DecidableEq, Repr

/-- `GameObject.getBounds` for the player. -/
def PlayerState.getBounds (p : PlayerState) : Bounds :=
  ⟨p.x, p.x + p.width, p.y, p.y + p.height, p.width, p.height⟩

/-- `PlayerCar.update` (engine.ts lines 102-117): move by
`speed * deltaTime` for each held direction, then clamp `x` to
`[10, canvasWidth - width - 10]`. -/
def playerUpdate (p : PlayerState) (deltaTime : ℚ) (ctx : GameContext) : PlayerState :=
  let moveDistance := p.speed * deltaTime
  let x1 := if ctx.keys.left then p.x - moveDistance else p.x
  let x2 := if ctx.keys.right then x1 + moveDistance else x1
  let x3 := if x2 < 10 then 10 else x2
  let x4 := if x3 > ctx.canvasWidth - p.width - 10 then ctx.canvasWidth - p.width - 10 else x3
  { p with x := x4 }

/-! ### Road (engine.ts lines 508-517) -/

/-- The mutable state of `Road`: `laneOffset` (initially 0) and the
constant `laneSpeed` (initially 300, never reassigned). -/
structure RoadState where
  laneOffset : ℚ
  laneSpeed : ℚ
deriving DecidableEq, Repr

/-- The `new Road()` initial state. -/
def mkRoad : RoadState := ⟨0, 300⟩

/-- `Road.update` (engine.ts lines 512-517): accumulate
`laneSpeed * speedMultiplier * deltaTime` and reset to 0 once the
offset exceeds 40. -/
def roadUpdate (r : RoadState) (deltaTime speedMultiplier : ℚ) : RoadState :=
  let o := r.laneOffset + r.laneSpeed * speedMultiplier * deltaTime
  if o > 40 then { r with laneOffset := 0 } else { r with laneOffset := o }

/-! ### ObstacleCar (engine.ts lines 323-427) -/

/-- The lane x-coordinates, `const LANES = [50, 150, 250, 350]`. -/
def LANES : List ℚ := [50, 150, 250, 350]

/-- The `'left' | 'right'` blinker side tag. -/
inductive BlinkerSide where
  | left
  | right
deriving DecidableEq, Repr

/-- The mutable state of `ObstacleCar`: position, fixed 50x80 dimensions,
`speed`, and the lane-change AI fields. -/
structure ObstacleCarState where
  x : ℚ
  y : ℚ
  width : ℚ
  height : ℚ
  speed : ℚ
  targetLaneX : Option ℚ
  laneChangeTimer : ℚ
  blinkerState : Bool
  blinkerTimer : ℚ
  blinkerSide : Option BlinkerSide
deriving DecidableEq, Repr

/-- `new ObstacleCar(x, speed)`: spawns at `y = -100`, 50x80, with the
`Math.random() * 2` initial timer passed in as `timer0`. -/
def mkObstacleCar (x speed timer0 : ℚ) : ObstacleCarState :=
  ⟨x, -100, 50, 80, speed, none, timer0, false, 0, none⟩

/-- `GameObject.getBounds` for an obstacle car. -/
def ObstacleCarState.getBounds (c : ObstacleCarState) : Bounds :=
  ⟨c.x, c.x + c.width, c.y, c.y + c.height, c.width, c.height⟩

/-- The two `Math.random()` draws an `ObstacleCar.update` tick can consume:
`roll` is the draw compared against 0.3 (30% chance to try switching) and
`laneChoice` stands for `Math.floor(Math.random() * options.length)`,
taken modulo the number of options. -/
structure RandIn where
  roll : ℚ
  laneChoice : ℕ
deriving DecidableEq, Repr

/-- The body of `ObstacleCar.tryChangeLane` (engine.ts lines 379-407)
after the `findIndex` lookup, dispatching on its result (`none` models
the early return on `currentLaneIndex === -1`): collect the adjacent
lane indices, pick one, and set `targetLaneX`/`blinkerSide` unless some
other entity's bounds are within 30 px of the target lane x and within
150 px vertically of the car. -/
def tryChangeLaneGo (c : ObstacleCarState) (obstacles : List Bounds) (laneChoice : ℕ) :
    Option ℕ → ObstacleCarState
  | none => c
  | some currentLaneIndex =>
    let options :=
      (if 0 < currentLaneIndex then [currentLaneIndex - 1] else []) ++
      (if currentLaneIndex < LANES.length - 1 then [currentLaneIndex + 1] else [])
    if options.length = 0 then c
    else
      let targetIndex := options.getD (laneChoice % options.length) 0
      let targetX := LANES.getD targetIndex 0
      let isBlocked := obstacles.any (fun b =>
        decide (mathAbs (b.left - targetX) < 30) && decide (mathAbs (b.top - c.y) < 150))
      if isBlocked then c
      else
        { c with targetLaneX := some targetX,
                 blinkerSide := some (if targetIndex < currentLaneIndex
                                      then BlinkerSide.left else BlinkerSide.right) }

/-- `ObstacleCar.tryChangeLane` (engine.ts lines 374-408): find the
current lane by horizontal proximity (`Math.abs(l - center) < 30`,
`findIndex` modelled by `findIdx?`), then run the body above. -/
def tryChangeLane (c : ObstacleCarState) (obstacles : List Bounds) (laneChoice : ℕ) :
    ObstacleCarState :=
  tryChangeLaneGo c obstacles laneChoice
    (LANES.findIdx? (fun l => decide (mathAbs (l - c.x) < 30)))

/-- Step 1 of `ObstacleCar.update` (engine.ts lines 339-344): vertical
movement `y += speed * speedMultiplier * deltaTime * 60` and the
`laneChangeTimer`/`blinkerTimer` accumulation. -/
def carKinematics (c : ObstacleCarState) (deltaTime : ℚ) (ctx : GameContext) :
    ObstacleCarState :=
  { c with y := c.y + c.speed * ctx.speedMultiplier * deltaTime * 60,
           laneChangeTimer := c.laneChangeTimer + deltaTime,
           blinkerTimer := c.blinkerTimer + deltaTime }

/-- The blinker toggle of `ObstacleCar.update` (engine.ts lines 347-350):
flip `blinkerState` and reset the timer once it exceeds 0.2 s. -/
def carBlinker (c : ObstacleCarState) : ObstacleCarState :=
  if c.blinkerTimer > 1/5 then
    { c with blinkerState := !c.blinkerState, blinkerTimer := 0 }
  else c

/-- `ObstacleCar.update` (engine.ts lines 338-372): kinematics and blinker
phases, then either the active lane change (snap when the remaining
distance is below one frame's lateral step `100 * deltaTime`) or the
decision branch (every 3 s, 30% chance to call `tryChangeLane`). -/
def carUpdate (c : ObstacleCarState) (deltaTime : ℚ) (ctx : GameContext) (rnd : RandIn) :
    ObstacleCarState :=
  let c2 := carBlinker (carKinematics c deltaTime ctx)
  match c2.targetLaneX with
  | some target =>
    let moveSpeed := 100 * deltaTime
    if mathAbs (c2.x - target) < moveSpeed then
      { c2 with x := target, targetLaneX := none, blinkerSide := none }
    else if c2.x < target then { c2 with x := c2.x + moveSpeed }
    else { c2 with x := c2.x - moveSpeed }
  | none =>
    if c2.laneChangeTimer > 3 then
      let c3 := { c2 with laneChangeTimer := 0 }
      if rnd.roll < 3/10 then tryChangeLane c3 ctx.others rnd.laneChoice else c3
    else c2

/-- Iterated `ObstacleCar.update`: `carIter dt ctxs rnds n c` applies `n`
ticks, tick `k` using context `ctxs k` and random draws `rnds k`. -/
def carIter (dt : ℚ) (ctxs : ℕ → GameContext) (rnds : ℕ → RandIn) :
    ℕ → ObstacleCarState → ObstacleCarState
  | 0, c => c
  | n + 1, c => carUpdate (carIter dt ctxs rnds n c) dt (ctxs n) (rnds n)

/-! ### Truck and Barrier (engine.ts lines 433-502) -/

/-- The mutable state of `Truck`: 60x120, spawns at `y = -150`. -/
structure TruckState where
  x : ℚ
  y : ℚ
  width : ℚ
  height : ℚ
  speed : ℚ
deriving DecidableEq, Repr

def mkTruck (x speed : ℚ) : TruckState := ⟨x, -150, 60, 120, speed⟩

/-- The mutable state of `Barrier`: 40x40, spawns at `y = -50`, fixed
`speed = 6`. -/
structure BarrierState where
  x : ℚ
  y : ℚ
  width : ℚ
  height : ℚ
  speed : ℚ
deriving DecidableEq, Repr

def mkBarrier (x : ℚ) : BarrierState := ⟨x, -50, 40, 40, 6⟩

/-! ### The polymorphic live-entity type -/

/-- The closed set of obstacle kinds stored in `obstaclesRef: GameObject[]`
by the game component (cars, trucks, barriers). -/
inductive GObj where
  | car (c : ObstacleCarState)
  | truck (t : TruckState)
  | barrier (b : BarrierState)
deriving DecidableEq, Repr

/-- The entity's current `y` (its `this.y` field). -/
def GObj.yPos : GObj → ℚ
  | .car c => c.y
  | .truck t => t.y
  | .barrier b => b.y

/-- `GameObject.getBounds` dispatched over the obstacle kinds. -/
def GObj.getBounds : GObj → Bounds
  | .car c => c.getBounds
  | .truck t => ⟨t.x, t.x + t.width, t.y, t.y + t.height, t.width, t.height⟩
  | .barrier b => ⟨b.x, b.x + b.width, b.y, b.y + b.height, b.width, b.height⟩

/-- `GameObject.isOffScreen` (engine.ts lines 80-82): `y > canvasHeight`. -/
def GObj.isOffScreen (g : GObj) (canvasHeight : ℚ) : Bool :=
  decide (g.yPos > canvasHeight)

/-- Polymorphic `update`: `ObstacleCar.update`, and the plain vertical
movement `y += speed * speedMultiplier * deltaTime * 60` of `Truck.update`
(lines 442-444) and `Barrier.update` (lines 483-485). -/
def GObj.update (g : GObj) (deltaTime : ℚ) (ctx : GameContext) (rnd : RandIn) : GObj :=
  match g with
  | .car c => .car (carUpdate c deltaTime ctx rnd)
  | .truck t => .truck { t with y := t.y + t.speed * ctx.speedMultiplier * deltaTime * 60 }
  | .barrier b => .barrier { b with y := b.y + b.speed * ctx.speedMultiplier * deltaTime * 60 }

/-! ### The per-tick obstacle pass (RacingGame.tsx lines 389-414)

The component iterates `obstaclesRef.current.forEach((obs, index) => ...)`:
update the entity, test collision against the player (on hit call
`handleGameOver()` and `return` from the callback), otherwise splice the
entity out and increment the score when it is off-screen.  JavaScript
`forEach` visits the original indices `0, 1, ...` of the *live* array, so
`splice(index, 1)` shifts the next element into the removed slot and the
visit of that slot is skipped; indices past the shrunk length no longer
exist and end the pass.  `crashed` records that `handleGameOver` ran. -/

def CANVAS_WIDTH : ℚ := 400
def CANVAS_HEIGHT : ℚ := 600

/-- Result of one obstacle pass: the live list, the score counter and
whether `handleGameOver` was invoked. -/
structure PassResult where
  obstacles : List GObj
  score : ℕ
  crashed : Bool
deriving DecidableEq, Repr

/-- The `forEach` body, iterating index `k` over the mutating array; `fuel`
is the number of original indices still to visit. -/
def obstaclePassAux (player : PlayerState) (dt mult : ℚ) (keys : InputKeys)
    (rnds : ℕ → RandIn) :
    ℕ → ℕ → List GObj → ℕ → Bool → PassResult
  | 0, _, arr, score, crashed => ⟨arr, score, crashed⟩
  | fuel + 1, k, arr, score, crashed =>
    match arr[k]? with
    | none => ⟨arr, score, crashed⟩
    | some g =>
      let ctx : GameContext :=
        ⟨CANVAS_WIDTH, CANVAS_HEIGHT, mult, keys, (arr.eraseIdx k).map GObj.getBounds⟩
      let obs := g.update dt ctx (rnds k)
      let arr1 := arr.set k obs
      if checkCollision player.getBounds obs.getBounds then
        obstaclePassAux player dt mult keys rnds fuel (k + 1) arr1 score true
      else if obs.isOffScreen CANVAS_HEIGHT then
        obstaclePassAux player dt mult keys rnds fuel (k + 1) (arr1.eraseIdx k) (score + 1) crashed
      else
        obstaclePassAux player dt mult keys rnds fuel (k + 1) arr1 score crashed

/-- One full obstacle update/collision/removal pass over the live list. -/
def obstaclePass (player : PlayerState) (dt mult : ℚ) (keys : InputKeys)
    (rnds : ℕ → RandIn) (arr : List GObj) (score : ℕ) : PassResult :=
  obstaclePassAux player dt mult keys rnds arr.length 0 arr score false

/-! ### SoundManager (RacingGame.tsx audio module)

State fields of the `SoundManager` class: the engine oscillator handle,
the `musicNodes` collection (modelled by the audio-clock start time of
each created node), the `nextNoteTime` cursor, the `isMusicPlaying` flag
and the pending `setTimeout` handle (`timerID`, modelled as a Boolean
pending flag). -/

structure SM where
  engineOsc : Option Unit
  musicNodes : List ℚ
  nextNoteTime : ℚ
  isMusicPlaying : Bool
  timerPending : Bool
deriving DecidableEq, Repr

/-- The freshly constructed `SoundManager`. -/
def smMk : SM := ⟨none, [], 0, false, false⟩

/-- `SoundManager.stopEngine` (lines 787-795): stop and drop the engine
oscillator if present (the `try`/`catch` swallows any error, so the
operation is total and leaves `engineOsc = null` either way). -/
def stopEngine (s : SM) : SM := { s with engineOsc := none }

/-- `SoundManager.startEngine` (lines 754-775): `stopEngine()` first, then
create and start a fresh oscillator. -/
def startEngine (s : SM) : SM := { stopEngine s with engineOsc := some () }

/-- `SoundManager.stopMusic` (lines 850-857): clear the playing flag,
cancel the pending timer, stop every tracked node (errors swallowed) and
empty the collection. -/
def stopMusic (s : SM) : SM :=
  { s with isMusicPlaying := false, timerPending := false, musicNodes := [] }

/-- `SoundManager.scheduleNote` (lines 875-892): nodes created for the note
at audio time `time` — kick on beats 0 and 4, hi-hat on odd beats, bass on
every beat, with `beat = Math.floor(time * 4) % 8`. -/
def scheduleNote (time : ℚ) : List ℚ :=
  let beat : ℤ := ⌊time * 4⌋ % 8
  (if beat = 0 ∨ beat = 4 then [time] else []) ++
  (if beat % 2 ≠ 0 then [time] else []) ++ [time]

/-- The `while (nextNoteTime < currentTime + 0.1)` loop of
`SoundManager.scheduler` (lines 867-870), with explicit fuel: schedules
the note at the cursor and advances the cursor by 0.25 while the cursor is
inside the 0.1 s lookahead window.  Returns the scheduled note times in
order together with the final cursor. -/
def schedLoopF : ℕ → ℚ → ℚ → List ℚ × ℚ
  | 0, t, _ => ([], t)
  | fuel + 1, t, c =>
    if t < c + 1/10 then
      let r := schedLoopF fuel (t + 1/4) c
      (t :: r.1, r.2)
    else ([], t)

/-- The exact number of iterations the `while` loop performs when entered
with cursor `t` and clock `c`: the number of naturals `k` with
`t + k * 0.25 < c + 0.1`.  Used as fuel, so `schedLoopF` runs the loop to
its natural exit (the guard is false at the returned cursor, see
`schedLoopF_final_ge`). -/
def neededFuel (t c : ℚ) : ℕ := (⌈(c + 1/10 - t) * 4⌉).toNat

/-- `SoundManager.scheduler` (lines 863-873) fired with audio-clock reading
`currentTime`: bail out if the music is not playing, otherwise run the
lookahead loop, record the created nodes, and re-arm the 25 ms timer.
Returns the note times scheduled by this firing. -/
def schedulerFire (s : SM) (currentTime : ℚ) : List ℚ × SM :=
  if s.isMusicPlaying = false then ([], s)
  else
    let r := schedLoopF (neededFuel s.nextNoteTime currentTime) s.nextNoteTime currentTime
    (r.1, { s with nextNoteTime := r.2,
                   musicNodes := s.musicNodes ++ r.1.flatMap scheduleNote,
                   timerPending := true })

/-- `SoundManager.startMusic` (lines 843-848): no-op when already playing,
otherwise set the flag, set `nextNoteTime` to the clock reading
`currentTime`, and synchronously run the scheduler (whose own clock
reading is `schedClock`). -/
def startMusic (s : SM) (currentTime schedClock : ℚ) : List ℚ × SM :=
  if s.isMusicPlaying then ([], s)
  else schedulerFire { s with isMusicPlaying := true, nextNoteTime := currentTime } schedClock

/-- A run of scheduler firings at the given sequence of audio-clock
readings; each scheduled note is paired with the clock reading of the
firing that scheduled it. -/
def runScheduler : SM → List ℚ → List (ℚ × ℚ) × SM
  | s, [] => ([], s)
  | s, c :: cs =>
    let r := schedulerFire s c
    let rest := runScheduler r.2 cs
    (r.1.map (fun e => (c, e)) ++ rest.1, rest.2)

/-! ### Basic lemmas -/

theorem mathAbs_nonneg (q : ℚ) : 0 ≤ mathAbs q := by
  unfold mathAbs; split <;> linarith

theorem mathAbs_of_neg {q : ℚ} (h : q < 0) : mathAbs q = -q := by
  unfold mathAbs; rw [if_pos h]

theorem mathAbs_of_nonneg {q : ℚ} (h : 0 ≤ q) : mathAbs q = q := by
  unfold mathAbs; rw [if_neg (not_lt.2 h)]

/-! ### Claim C3: the collision test on touching edges -/

/-- C3 counterexample: two 40x40 barriers whose bounds share exactly the
edge `A.right = B.left = 40` (interiors disjoint), yet `checkCollision`
reports a collision.  The claim states such a pair reports *no*
collision, so the claim as stated is false of the code: every separating
comparison in `checkCollision` is strict, hence equality at a boundary
counts as overlap. -/
theorem C3_touching_edges_collide_counterexample :
    (GObj.barrier (mkBarrier 0)).getBounds.right
      = (GObj.barrier (mkBarrier 40)).getBounds.left ∧
    checkCollision (GObj.barrier (mkBarrier 0)).getBounds
      (GObj.barrier (mkBarrier 40)).getBounds = true := by
  constructor
  · norm_num [GObj.getBounds, mkBarrier]
  · with_unfolding_all decide

/-- C3 amended: `checkCollision` reports a collision exactly when the two
closed rectangles intersect, so rectangles sharing only an edge DO
collide; separation requires a strict gap at some boundary. -/
theorem C3_collision_iff_closed_overlap (r1 r2 : Bounds) :
    checkCollision r1 r2 = true ↔
      (r2.left ≤ r1.right ∧ r1.left ≤ r2.right ∧
       r2.top ≤ r1.bottom ∧ r1.top ≤ r2.bottom) := by
  simp [checkCollision, not_lt, and_assoc]

/-! ### Claim C8: stopping the session is idempotent -/

/-- C8: `stopMusic` followed by `stopEngine` is idempotent — running the
pair a second time is a no-op (and each operation is individually
idempotent) — and the stopped state has the playing flag cleared, no
pending scheduler timer, an empty tracked music-node set, and no live
engine oscillator.  Both operations are total (the source wraps every
`node.stop()` in `try`/`catch`), so the second invocation raises no
error. -/
theorem C8_stop_idempotent (s : SM) :
    stopEngine (stopMusic (stopEngine (stopMusic s))) = stopEngine (stopMusic s) ∧
    stopMusic (stopMusic s) = stopMusic s ∧
    stopEngine (stopEngine s) = stopEngine s ∧
    (stopEngine (stopMusic s)).isMusicPlaying = false ∧
    (stopEngine (stopMusic s)).timerPending = false ∧
    (stopEngine (stopMusic s)).musicNodes = [] ∧
    (stopEngine (stopMusic s)).engineOsc = none :=
  ⟨rfl, rfl, rfl, rfl, rfl, rfl, rfl⟩

/-! ### Claim C9: opposed steering inputs cancel exactly -/

/-- C9: with both left and right held, the two displacements
`speed * deltaTime` cancel exactly in `PlayerCar.update`, and for a
player already inside the clamp range `[10, canvasWidth - width - 10]`
neither clamp fires, so `x` is unchanged. -/
theorem C9_opposed_inputs_cancel (p : PlayerState) (dt : ℚ) (ctx : GameContext)
    (hdt : 0 ≤ dt) (hl : ctx.keys.left = true) (hr : ctx.keys.right = true)
    (hlo : 10 ≤ p.x) (hhi : p.x ≤ ctx.canvasWidth - p.width - 10) :
    (playerUpdate p dt ctx).x = p.x := by
  unfold playerUpdate
  simp only [hl, hr, if_true]
  have hb : p.x - p.speed * dt + p.speed * dt = p.x := by ring
  rw [hb, if_neg (not_lt.2 hlo), if_neg (not_lt.2 hhi)]

def c9Player : PlayerState := ⟨175, 500, 50, 80, 300⟩

def c9Ctx : GameContext := ⟨400, 600, 1, ⟨true, true⟩, []⟩

theorem C9_opposed_inputs_cancel_witness :
    (0:ℚ) ≤ 1/2 ∧ c9Ctx.keys.left = true ∧ c9Ctx.keys.right = true ∧
    10 ≤ c9Player.x ∧ c9Player.x ≤ c9Ctx.canvasWidth - c9Player.width - 10 ∧
    (playerUpdate c9Player (1/2) c9Ctx).x = c9Player.x :=
  ⟨by norm_num, rfl, rfl, by with_unfolding_all decide, by with_unfolding_all decide,
   C9_opposed_inputs_cancel c9Player (1/2) c9Ctx (by norm_num) rfl rfl
     (by with_unfolding_all decide) (by with_unfolding_all decide)⟩

/-! ### Claim C10: the road-scroll phase stays in [0, 40] -/

/-- C10: `Road.update` preserves `0 ≤ laneOffset ≤ 40`: a nonnegative
increment is added, and any accumulated value exceeding 40 is reset to 0
within the same update. -/
theorem C10_lane_offset_bounded (r : RoadState) (dt mult : ℚ)
    (hdt : 0 ≤ dt) (hm : 0 ≤ mult) (hs : r.laneSpeed = 300)
    (h0 : 0 ≤ r.laneOffset) (h40 : r.laneOffset ≤ 40) :
    0 ≤ (roadUpdate r dt mult).laneOffset ∧ (roadUpdate r dt mult).laneOffset ≤ 40 := by
  have hinc : 0 ≤ r.laneSpeed * mult * dt := by
    rw [hs]
    exact mul_nonneg (mul_nonneg (by norm_num) hm) hdt
  simp only [roadUpdate]
  split
  · exact ⟨le_refl 0, by norm_num⟩
  · rename_i hle
    push_neg at hle
    constructor
    · simp only
      linarith
    · simpa using hle

theorem C10_lane_offset_bounded_witness :
    (0:ℚ) ≤ 1/60 ∧ (0:ℚ) ≤ 2 ∧ mkRoad.laneSpeed = 300 ∧
    0 ≤ mkRoad.laneOffset ∧ mkRoad.laneOffset ≤ 40 ∧
    (0 ≤ (roadUpdate mkRoad (1/60) 2).laneOffset ∧
     (roadUpdate mkRoad (1/60) 2).laneOffset ≤ 40) :=
  ⟨by norm_num, by norm_num, rfl, by with_unfolding_all decide, by with_unfolding_all decide,
   C10_lane_offset_bounded mkRoad (1/60) 2 (by norm_num) (by norm_num) rfl
     (by with_unfolding_all decide) (by with_unfolding_all decide)⟩

/-! ### Field lemmas for the car update phases -/

theorem carKinematics_x (c : ObstacleCarState) (dt : ℚ) (ctx : GameContext) :
    (carKinematics c dt ctx).x = c.x := rfl

theorem carKinematics_y (c : ObstacleCarState) (dt : ℚ) (ctx : GameContext) :
    (carKinematics c dt ctx).y = c.y + c.speed * ctx.speedMultiplier * dt * 60 := rfl

theorem carKinematics_speed (c : ObstacleCarState) (dt : ℚ) (ctx : GameContext) :
    (carKinematics c dt ctx).speed = c.speed := rfl

theorem carKinematics_targetLaneX (c : ObstacleCarState) (dt : ℚ) (ctx : GameContext) :
    (carKinematics c dt ctx).targetLaneX = c.targetLaneX := rfl

theorem carBlinker_x (c : ObstacleCarState) : (carBlinker c).x = c.x := by
  unfold carBlinker; split <;> rfl

theorem carBlinker_y (c : ObstacleCarState) : (carBlinker c).y = c.y := by
  unfold carBlinker; split <;> rfl

theorem carBlinker_speed (c : ObstacleCarState) : (carBlinker c).speed = c.speed := by
  unfold carBlinker; split <;> rfl

theorem carBlinker_targetLaneX (c : ObstacleCarState) :
    (carBlinker c).targetLaneX = c.targetLaneX := by
  unfold carBlinker; split <;> rfl

theorem tryChangeLane_x (c : ObstacleCarState) (obs : List Bounds) (ch : ℕ) :
    (tryChangeLane c obs ch).x = c.x := by
  unfold tryChangeLane
  generalize LANES.findIdx? (fun l => decide (mathAbs (l - c.x) < 30)) = r
  cases r with
  | none => rfl
  | some i =>
    simp only [tryChangeLaneGo]
    split_ifs <;> rfl

theorem tryChangeLane_y (c : ObstacleCarState) (obs : List Bounds) (ch : ℕ) :
    (tryChangeLane c obs ch).y = c.y := by
  unfold tryChangeLane
  generalize LANES.findIdx? (fun l => decide (mathAbs (l - c.x) < 30)) = r
  cases r with
  | none => rfl
  | some i =>
    simp only [tryChangeLaneGo]
    split_ifs <;> rfl

theorem tryChangeLane_speed (c : ObstacleCarState) (obs : List Bounds) (ch : ℕ) :
    (tryChangeLane c obs ch).speed = c.speed := by
  unfold tryChangeLane
  generalize LANES.findIdx? (fun l => decide (mathAbs (l - c.x) < 30)) = r
  cases r with
  | none => rfl
  | some i =>
    simp only [tryChangeLaneGo]
    split_ifs <;> rfl

theorem carUpdate_y (c : ObstacleCarState) (dt : ℚ) (ctx : GameContext) (rnd : RandIn) :
    (carUpdate c dt ctx rnd).y = c.y + c.speed * ctx.speedMultiplier * dt * 60 := by
  have hy : (carBlinker (carKinematics c dt ctx)).y
      = c.y + c.speed * ctx.speedMultiplier * dt * 60 := by
    rw [carBlinker_y, carKinematics_y]
  cases hT : (carBlinker (carKinematics c dt ctx)).targetLaneX with
  | some target =>
    simp only [carUpdate, hT]
    split_ifs <;> simpa using hy
  | none =>
    simp only [carUpdate, hT]
    split_ifs <;> simp [tryChangeLane_y, hy]

theorem carUpdate_speed (c : ObstacleCarState) (dt : ℚ) (ctx : GameContext) (rnd : RandIn) :
    (carUpdate c dt ctx rnd).speed = c.speed := by
  have hv : (carBlinker (carKinematics c dt ctx)).speed = c.speed := by
    rw [carBlinker_speed, carKinematics_speed]
  cases hT : (carBlinker (carKinematics c dt ctx)).targetLaneX with
  | some target =>
    simp only [carUpdate, hT]
    split_ifs <;> simpa using hv
  | none =>
    simp only [carUpdate, hT]
    split_ifs <;> simp [tryChangeLane_speed, hv]

/-- When a lane change is active, `ObstacleCar.update` reduces to the
lane-change branch over the kinematics/blinker phases. -/
theorem carUpdate_target (c : ObstacleCarState) (dt : ℚ) (ctx : GameContext) (rnd : RandIn)
    (target : ℚ) (h : c.targetLaneX = some target) :
    carUpdate c dt ctx rnd =
      (let c2 := carBlinker (carKinematics c dt ctx)
       if mathAbs (c2.x - target) < 100 * dt then
         { c2 with x := target, targetLaneX := none, blinkerSide := none }
       else if c2.x < target then { c2 with x := c2.x + 100 * dt }
       else { c2 with x := c2.x - 100 * dt }) := by
  have h2 : (carBlinker (carKinematics c dt ctx)).targetLaneX = some target := by
    rw [carBlinker_targetLaneX, carKinematics_targetLaneX, h]
  simp only [carUpdate, h2]

/-- Snap case of the lane-change branch: when the remaining lateral
distance is below one frame's step `100 * dt`, the position is set
exactly to the target and `targetLaneX` is cleared. -/
theorem carUpdate_snap (c : ObstacleCarState) (dt : ℚ) (ctx : GameContext) (rnd : RandIn)
    (target : ℚ) (h : c.targetLaneX = some target)
    (hlt : mathAbs (c.x - target) < 100 * dt) :
    (carUpdate c dt ctx rnd).x = target ∧ (carUpdate c dt ctx rnd).targetLaneX = none := by
  have hx : (carBlinker (carKinematics c dt ctx)).x = c.x := by
    rw [carBlinker_x, carKinematics_x]
  rw [carUpdate_target c dt ctx rnd target h]
  simp only [hx]
  rw [if_pos hlt]
  exact ⟨rfl, rfl⟩

/-- Far case of the lane-change branch: when the remaining lateral
distance is at least one frame's step, the car moves exactly `100 * dt`
toward the target and the lane change stays active. -/
theorem carUpdate_far (c : ObstacleCarState) (dt : ℚ) (ctx : GameContext) (rnd : RandIn)
    (target : ℚ) (h : c.targetLaneX = some target)
    (hge : ¬ mathAbs (c.x - target) < 100 * dt) (hdt : 0 < dt) :
    (carUpdate c dt ctx rnd).targetLaneX = some target ∧
    mathAbs ((carUpdate c dt ctx rnd).x - target) = mathAbs (c.x - target) - 100 * dt := by
  have hx : (carBlinker (carKinematics c dt ctx)).x = c.x := by
    rw [carBlinker_x, carKinematics_x]
  have h2 : (carBlinker (carKinematics c dt ctx)).targetLaneX = some target := by
    rw [carBlinker_targetLaneX, carKinematics_targetLaneX, h]
  rw [carUpdate_target c dt ctx rnd target h]
  simp only [hx]
  rw [if_neg hge]
  by_cases hc : c.x < target
  · rw [if_pos hc]
    have habs : mathAbs (c.x - target) = target - c.x := by
      rw [mathAbs_of_neg (by linarith)]; ring
    have hd : 100 * dt ≤ target - c.x := by
      rw [habs] at hge; linarith [not_lt.1 hge]
    refine ⟨h2, ?_⟩
    show mathAbs (c.x + 100 * dt - target) = mathAbs (c.x - target) - 100 * dt
    rw [habs]
    unfold mathAbs
    split_ifs with hsign
    · ring
    · push_neg at hsign; linarith
  · rw [if_neg hc]
    have hle : target ≤ c.x := not_lt.1 hc
    have hgt : target < c.x := by
      rcases lt_or_eq_of_le hle with hlt' | heq
      · exact hlt'
      · exfalso
        apply hge
        rw [← heq, sub_self, mathAbs_of_nonneg le_rfl]
        linarith
    have habs : mathAbs (c.x - target) = c.x - target := mathAbs_of_nonneg (by linarith)
    have hd : 100 * dt ≤ c.x - target := by
      rw [habs] at hge; linarith [not_lt.1 hge]
    refine ⟨h2, ?_⟩
    show mathAbs (c.x - 100 * dt - target) = mathAbs (c.x - target) - 100 * dt
    rw [habs, mathAbs_of_nonneg (by linarith)]
    ring

/-! ### Claim C4: lane changes are never initiated into an occupied lane -/

/-- C4: whenever `tryChangeLane` sets `targetLaneX` (starting from a car
with no active lane change), no other entity's bounds lie both within the
30 px lane-proximity threshold of the chosen lane coordinate and within
the 150 px vertical clearance of the car, and the chosen coordinate is a
lane adjacent to the car's current lane index. -/
theorem C4_lane_change_safe (c : ObstacleCarState) (obstacles : List Bounds)
    (choice : ℕ) (t : ℚ) (h0 : c.targetLaneX = none)
    (hset : (tryChangeLane c obstacles choice).targetLaneX = some t) :
    (∀ b ∈ obstacles, ¬(mathAbs (b.left - t) < 30 ∧ mathAbs (b.top - c.y) < 150)) ∧
    (∃ i, LANES.findIdx? (fun l => decide (mathAbs (l - c.x) < 30)) = some i ∧
      ((0 < i ∧ t = LANES.getD (i - 1) 0) ∨
       (i < LANES.length - 1 ∧ t = LANES.getD (i + 1) 0))) := by
  unfold tryChangeLane at hset
  revert hset
  generalize LANES.findIdx? (fun l => decide (mathAbs (l - c.x) < 30)) = r
  intro hset
  cases r with
  | none =>
    simp only [tryChangeLaneGo] at hset
    rw [h0] at hset
    simp at hset
  | some i =>
    simp only [tryChangeLaneGo] at hset
    set options := (if 0 < i then [i - 1] else []) ++
      (if i < LANES.length - 1 then [i + 1] else []) with hopts
    set ti := options.getD (choice % options.length) 0 with hti
    set tx := LANES.getD ti 0 with htx
    rw [apply_ite ObstacleCarState.targetLaneX, apply_ite ObstacleCarState.targetLaneX] at hset
    simp only [h0] at hset
    split_ifs at hset with hlen hblk
    have htxt : tx = t := by simpa using hset
    constructor
    · intro b hb hcon
      apply hblk
      rw [List.any_eq_true]
      refine ⟨b, hb, ?_⟩
      rw [Bool.and_eq_true, decide_eq_true_eq, decide_eq_true_eq, htxt]
      exact hcon
    · have hpos : 0 < options.length := Nat.pos_of_ne_zero hlen
      have hmlt : choice % options.length < options.length := Nat.mod_lt _ hpos
      have hmem : ti ∈ options := by
        rw [hti, List.getD_eq_getElem _ _ hmlt]
        exact List.getElem_mem hmlt
      refine ⟨i, rfl, ?_⟩
      rcases List.mem_append.1 hmem with hL | hR
      · by_cases hi : 0 < i
        · refine Or.inl ⟨hi, ?_⟩
          rw [if_pos hi] at hL
          have hti1 : ti = i - 1 := by simpa using hL
          rw [← htxt, htx, hti1]
        · rw [if_neg hi] at hL; simp at hL
      · by_cases hi : i < LANES.length - 1
        · refine Or.inr ⟨hi, ?_⟩
          rw [if_pos hi] at hR
          have hti1 : ti = i + 1 := by simpa using hR
          rw [← htxt, htx, hti1]
        · rw [if_neg hi] at hR; simp at hR

def c4Car : ObstacleCarState := mkObstacleCar 150 3 0

def c4Obs : List Bounds := [⟨250, 300, 100, 180, 50, 80⟩]

theorem C4_lane_change_safe_witness :
    c4Car.targetLaneX = none ∧
    (tryChangeLane c4Car c4Obs 0).targetLaneX = some 50 ∧
    ((∀ b ∈ c4Obs, ¬(mathAbs (b.left - 50) < 30 ∧ mathAbs (b.top - c4Car.y) < 150)) ∧
     (∃ i, LANES.findIdx? (fun l => decide (mathAbs (l - c4Car.x) < 30)) = some i ∧
       ((0 < i ∧ (50:ℚ) = LANES.getD (i - 1) 0) ∨
        (i < LANES.length - 1 ∧ (50:ℚ) = LANES.getD (i + 1) 0)))) :=
  ⟨rfl, by with_unfolding_all decide,
   C4_lane_change_safe c4Car c4Obs 0 50 rfl (by with_unfolding_all decide)⟩

/-! ### Claim C6: lane-change convergence -/

theorem carIter_shift (dt : ℚ) (ctxs : ℕ → GameContext) (rnds : ℕ → RandIn) :
    ∀ (N : ℕ) (c : ObstacleCarState),
      carIter dt ctxs rnds (N + 1) c =
      carIter dt (fun k => ctxs (k + 1)) (fun k => rnds (k + 1)) N
        (carUpdate c dt (ctxs 0) (rnds 0)) := by
  intro N
  induction N with
  | zero => intro c; rfl
  | succ N ih =>
    intro c
    show carUpdate (carIter dt ctxs rnds (N + 1) c) dt (ctxs (N + 1)) (rnds (N + 1)) = _
    rw [ih]
    rfl

theorem carConverge_aux (dt : ℚ) (hdt : 0 < dt) (L : ℚ) :
    ∀ (n : ℕ) (c : ObstacleCarState) (ctxs : ℕ → GameContext) (rnds : ℕ → RandIn),
      c.targetLaneX = some L → mathAbs (c.x - L) < n * (100 * dt) →
      ∃ N, (carIter dt ctxs rnds N c).x = L ∧
           (carIter dt ctxs rnds N c).targetLaneX = none := by
  intro n
  induction n with
  | zero =>
    intro c ctxs rnds h hd
    exfalso
    have h0 := mathAbs_nonneg (c.x - L)
    norm_num at hd
    linarith
  | succ n ih =>
    intro c ctxs rnds h hd
    by_cases hlt : mathAbs (c.x - L) < 100 * dt
    · obtain ⟨hx, hT⟩ := carUpdate_snap c dt (ctxs 0) (rnds 0) L h hlt
      exact ⟨1, hx, hT⟩
    · obtain ⟨hT1, hd1⟩ := carUpdate_far c dt (ctxs 0) (rnds 0) L h hlt hdt
      have hdlt : mathAbs ((carUpdate c dt (ctxs 0) (rnds 0)).x - L) < n * (100 * dt) := by
        rw [hd1]
        have hd' : mathAbs (c.x - L) < ((n : ℚ) + 1) * (100 * dt) := by
          push_cast at hd
          linarith
        linarith [hd']
      obtain ⟨N, hx, hT⟩ := ih (carUpdate c dt (ctxs 0) (rnds 0))
        (fun k => ctxs (k + 1)) (fun k => rnds (k + 1)) hT1 hdlt
      refine ⟨N + 1, ?_, ?_⟩
      · rw [carIter_shift]; exact hx
      · rw [carIter_shift]; exact hT

/-- C6: an `ObstacleCar` with an active lane change toward the lane
coordinate `L`, updated repeatedly with a fixed `deltaTime > 0`, reaches
`x = L` exactly with `targetLaneX` cleared after a bounded number of
ticks, for every sequence of contexts and random draws; the clearing
fires exactly on the tick whose remaining lateral distance is below one
frame's step `100 * deltaTime`, and on that tick the position snaps
exactly to `L`. -/
theorem C6_lane_change_convergence (c : ObstacleCarState) (L dt : ℚ)
    (ctxs : ℕ → GameContext) (rnds : ℕ → RandIn)
    (hL : L ∈ LANES) (hT : c.targetLaneX = some L) (hdt : 0 < dt) :
    (∃ N, (carIter dt ctxs rnds N c).x = L ∧
          (carIter dt ctxs rnds N c).targetLaneX = none) ∧
    (∀ s : ObstacleCarState, s.targetLaneX = some L →
      ((carUpdate s dt (ctxs 0) (rnds 0)).targetLaneX = none ↔
        mathAbs (s.x - L) < 100 * dt)) ∧
    (∀ s : ObstacleCarState, s.targetLaneX = some L → mathAbs (s.x - L) < 100 * dt →
      (carUpdate s dt (ctxs 0) (rnds 0)).x = L) := by
  refine ⟨?_, ?_, ?_⟩
  · obtain ⟨n, hn⟩ := exists_nat_gt (mathAbs (c.x - L) / (100 * dt))
    have h100 : (0:ℚ) < 100 * dt := by linarith
    refine carConverge_aux dt hdt L n c ctxs rnds hT ?_
    rwa [div_lt_iff₀ h100] at hn
  · intro s hs
    constructor
    · intro hnone
      by_contra hge
      have hfar := (carUpdate_far s dt (ctxs 0) (rnds 0) L hs hge hdt).1
      rw [hnone] at hfar
      exact Option.noConfusion hfar
    · intro hlt
      exact (carUpdate_snap s dt (ctxs 0) (rnds 0) L hs hlt).2
  · intro s hs hlt
    exact (carUpdate_snap s dt (ctxs 0) (rnds 0) L hs hlt).1

def c6Car : ObstacleCarState := { mkObstacleCar 150 3 0 with targetLaneX := some 250 }

def c6Ctxs : ℕ → GameContext := fun _ => ⟨400, 600, 1, ⟨false, false⟩, []⟩

def c6Rnds : ℕ → RandIn := fun _ => ⟨1, 0⟩

theorem C6_lane_change_convergence_witness :
    (250:ℚ) ∈ LANES ∧ c6Car.targetLaneX = some 250 ∧ (0:ℚ) < 1 ∧
    ((∃ N, (carIter 1 c6Ctxs c6Rnds N c6Car).x = 250 ∧
           (carIter 1 c6Ctxs c6Rnds N c6Car).targetLaneX = none) ∧
     (∀ s : ObstacleCarState, s.targetLaneX = some 250 →
       ((carUpdate s 1 (c6Ctxs 0) (c6Rnds 0)).targetLaneX = none ↔
         mathAbs (s.x - 250) < 100 * 1)) ∧
     (∀ s : ObstacleCarState, s.targetLaneX = some 250 → mathAbs (s.x - 250) < 100 * 1 →
       (carUpdate s 1 (c6Ctxs 0) (c6Rnds 0)).x = 250)) :=
  ⟨by with_unfolding_all decide, rfl, by norm_num,
   C6_lane_change_convergence c6Car 250 1 c6Ctxs c6Rnds
     (by with_unfolding_all decide) rfl (by norm_num)⟩

/-! ### Claim C7: vertical motion rate -/

theorem carIter_y (dt : ℚ) (ctxs : ℕ → GameContext) (rnds : ℕ → RandIn)
    (hm : ∀ k, (ctxs k).speedMultiplier = 1) (c : ObstacleCarState) :
    ∀ n : ℕ, (carIter dt ctxs rnds n c).speed = c.speed ∧
      (carIter dt ctxs rnds n c).y = c.y + n * (c.speed * dt * 60) := by
  intro n
  induction n with
  | zero => exact ⟨rfl, by simp [carIter]⟩
  | succ n ih =>
    constructor
    · show (carUpdate (carIter dt ctxs rnds n c) dt (ctxs n) (rnds n)).speed = c.speed
      rw [carUpdate_speed, ih.1]
    · show (carUpdate (carIter dt ctxs rnds n c) dt (ctxs n) (rnds n)).y = _
      rw [carUpdate_y, ih.1, ih.2, hm n]
      push_cast
      ring

/-- C7: every `ObstacleCar.update` advances `y` by exactly
`speed * speedMultiplier * deltaTime * 60`; hence a car with speed 3 and
`speedMultiplier = 1` gains exactly 180 px of vertical position over 60
updates with `deltaTime = 1/60`, under exact rational arithmetic. -/
theorem C7_vertical_motion_rate (c : ObstacleCarState)
    (ctxs : ℕ → GameContext) (rnds : ℕ → RandIn)
    (hs : c.speed = 3) (hm : ∀ k, (ctxs k).speedMultiplier = 1) :
    (∀ (s : ObstacleCarState) (dt : ℚ) (k : ℕ),
      (carUpdate s dt (ctxs k) (rnds k)).y =
        s.y + s.speed * (ctxs k).speedMultiplier * dt * 60) ∧
    (carIter (1/60) ctxs rnds 60 c).y = c.y + 180 := by
  constructor
  · intro s dt k
    exact carUpdate_y s dt (ctxs k) (rnds k)
  · have h := (carIter_y (1/60) ctxs rnds hm c 60).2
    rw [h, hs]
    norm_num

def c7Car : ObstacleCarState := mkObstacleCar 150 3 0

def c7Ctxs : ℕ → GameContext := fun _ => ⟨400, 600, 1, ⟨false, false⟩, []⟩

def c7Rnds : ℕ → RandIn := fun _ => ⟨1, 0⟩

theorem C7_vertical_motion_rate_witness :
    c7Car.speed = 3 ∧ (∀ k, (c7Ctxs k).speedMultiplier = 1) ∧
    ((∀ (s : ObstacleCarState) (dt : ℚ) (k : ℕ),
       (carUpdate s dt (c7Ctxs k) (c7Rnds k)).y =
         s.y + s.speed * (c7Ctxs k).speedMultiplier * dt * 60) ∧
     (carIter (1/60) c7Ctxs c7Rnds 60 c7Car).y = c7Car.y + 180) :=
  ⟨rfl, fun _ => rfl,
   C7_vertical_motion_rate c7Car c7Ctxs c7Rnds rfl (fun _ => rfl)⟩

/-! ### Claim C1: off-screen removal skips the element shifted into the
removed slot -/

def c1Player : PlayerState := ⟨175, 500, 50, 80, 300⟩

def c1CarA : ObstacleCarState := { mkObstacleCar 50 3 0 with y := 601 }

def c1CarB : ObstacleCarState := { mkObstacleCar 150 3 0 with y := 601 }

def c1Keys : InputKeys := ⟨false, false⟩

def c1Rnds : ℕ → RandIn := fun _ => ⟨1, 0⟩

set_option maxRecDepth 8000 in
/-- C1 failing input evaluated: two adjacent obstacle cars are both
off-screen (`y = 601 > 600`) on the same tick and neither collides with
the player.  After the pass the first is removed and scored, but the
second — shifted into the spliced index and skipped by `forEach` — is
still in the live list, not even updated (its state is unchanged), and
the score rose by 1, not 2.  The claim demands that every off-screen,
collision-free entity be removed and scored on that same tick. -/
theorem C1_offscreen_skip_bug :
    (GObj.car c1CarB).isOffScreen CANVAS_HEIGHT = true ∧
    obstaclePass c1Player (1/60) 1 c1Keys c1Rnds
        [GObj.car c1CarA, GObj.car c1CarB] 0 =
      ⟨[GObj.car c1CarB], 1, false⟩ := by
  constructor
  · with_unfolding_all decide
  · with_unfolding_all decide

/-! ### Claim C2: a collision does not stop the per-frame pass -/

def c2Player : PlayerState := ⟨175, 500, 50, 80, 300⟩

def c2CarA : ObstacleCarState := { mkObstacleCar 175 3 0 with y := 430 }

def c2CarB : ObstacleCarState := { mkObstacleCar 150 3 0 with y := 601 }

def c2CarAfter : ObstacleCarState :=
  { c2CarA with y := 433, laneChangeTimer := 1/60, blinkerTimer := 1/60 }

def c2Keys : InputKeys := ⟨false, false⟩

def c2Rnds : ℕ → RandIn := fun _ => ⟨1, 0⟩

set_option maxRecDepth 8000 in
/-- C2 failing input evaluated: the first obstacle collides with the
player (`crashed = true`, i.e. `handleGameOver` ran), yet the pass
continues — the `return` in the source exits only the current `forEach`
callback — so the second obstacle is still updated, found off-screen,
removed, and scored (`score = 1`) on the very same tick, after the
collision was detected.  The claim demands that no remaining entity be
updated, tested, removed, or scored after the collision is found. -/
theorem C2_collision_does_not_stop_frame :
    checkCollision c2Player.getBounds (GObj.car c2CarAfter).getBounds = true ∧
    obstaclePass c2Player (1/60) 1 c2Keys c2Rnds
        [GObj.car c2CarA, GObj.car c2CarB] 0 =
      ⟨[GObj.car c2CarAfter], 1, true⟩ := by
  constructor
  · with_unfolding_all decide
  · with_unfolding_all decide

/-! ### Claim C5: the audio scheduler's event stream -/

/-- The arithmetic progression of note times: `m` notes starting at `t`,
spaced by the fixed 0.25 s note interval. -/
def noteSeq (t : ℚ) (m : ℕ) : List ℚ :=
  (List.range m).map (fun j : ℕ => t + (j : ℚ) * (1/4))

theorem noteSeq_length (t : ℚ) (m : ℕ) : (noteSeq t m).length = m := by
  simp [noteSeq]

theorem noteSeq_getD (t : ℚ) (m k : ℕ) (hk : k < m) :
    (noteSeq t m).getD k 0 = t + k * (1/4) := by
  unfold noteSeq
  rw [List.getD_eq_getElem _ _ (by simpa using hk)]
  simp

theorem noteSeq_succ_head (t : ℚ) (m : ℕ) :
    noteSeq t (m + 1) = t :: noteSeq (t + 1/4) m := by
  unfold noteSeq
  rw [List.range_succ_eq_map, List.map_cons, List.map_map]
  congr 1
  · norm_num
  · apply List.map_congr_left
    intro j hj
    show t + ((j + 1 : ℕ) : ℚ) * (1/4) = t + 1/4 + (j : ℚ) * (1/4)
    push_cast
    ring

theorem noteSeq_append (t : ℚ) (m1 m2 : ℕ) :
    noteSeq t (m1 + m2) = noteSeq t m1 ++ noteSeq (t + m1 * (1/4)) m2 := by
  unfold noteSeq
  rw [List.range_add, List.map_append, List.map_map]
  congr 1
  apply List.map_congr_left
  intro j hj
  show t + ((m1 + j : ℕ) : ℚ) * (1/4) = t + (m1 : ℚ) * (1/4) + (j : ℚ) * (1/4)
  push_cast
  ring

/-- The lookahead loop produces the arithmetic progression with step 0.25
starting at the incoming cursor, and advances the cursor by 0.25 per
scheduled note. -/
theorem schedLoopF_range :
    ∀ (fuel : ℕ) (t c : ℚ), ∃ m : ℕ,
      (schedLoopF fuel t c).1 = noteSeq t m ∧
      (schedLoopF fuel t c).2 = t + m * (1/4) := by
  intro fuel
  induction fuel with
  | zero =>
    intro t c
    exact ⟨0, by simp [schedLoopF, noteSeq], by simp [schedLoopF]⟩
  | succ fuel ih =>
    intro t c
    by_cases h : t < c + 1/10
    · obtain ⟨m, hm1, hm2⟩ := ih (t + 1/4) c
      refine ⟨m + 1, ?_, ?_⟩
      · simp only [schedLoopF, if_pos h]
        rw [hm1, noteSeq_succ_head]
      · simp only [schedLoopF, if_pos h]
        rw [hm2]
        push_cast
        ring
    · refine ⟨0, ?_, ?_⟩
      · simp only [schedLoopF]
        rw [if_neg h]
        simp [noteSeq]
      · simp only [schedLoopF]
        rw [if_neg h]
        simp

/-- Every note scheduled by the lookahead loop lies strictly inside the
lookahead window `clock + 0.1`. -/
theorem schedLoopF_elts_lt :
    ∀ (fuel : ℕ) (t c : ℚ), ∀ e ∈ (schedLoopF fuel t c).1, e < c + 1/10 := by
  intro fuel
  induction fuel with
  | zero => intro t c e he; simp [schedLoopF] at he
  | succ fuel ih =>
    intro t c e he
    by_cases h : t < c + 1/10
    · simp only [schedLoopF, if_pos h] at he
      rcases List.mem_cons.1 he with rfl | hmem
      · exact h
      · exact ih (t + 1/4) c e hmem
    · rw [schedLoopF, if_neg h] at he
      simp at he

/-- The loop exits with the guard false: run with at least `neededFuel`
fuel (as `schedulerFire` does), the fuelled loop returns a cursor at or
past `clock + 0.1` — the fuel runs the source's `while` loop to its
natural exit rather than cutting it short. -/
theorem schedLoopF_final_ge :
    ∀ (fuel : ℕ) (t c : ℚ), neededFuel t c ≤ fuel →
      ¬ (schedLoopF fuel t c).2 < c + 1/10 := by
  intro fuel
  induction fuel with
  | zero =>
    intro t c hf
    have h0 : (⌈(c + 1/10 - t) * 4⌉).toNat = 0 := Nat.le_zero.1 hf
    have hle : ⌈(c + 1/10 - t) * 4⌉ ≤ 0 := Int.toNat_eq_zero.1 h0
    have hr : (c + 1/10 - t) * 4 ≤ 0 := by
      have hcast := Int.ceil_le.1 hle
      push_cast at hcast
      linarith
    simp only [schedLoopF]
    intro hlt
    linarith
  | succ fuel ih =>
    intro t c hf
    by_cases h : t < c + 1/10
    · have hr : (0:ℚ) < (c + 1/10 - t) * 4 := by linarith
      have hceil : 1 ≤ ⌈(c + 1/10 - t) * 4⌉ := Int.ceil_pos.2 hr
      have heq : (c + 1/10 - (t + 1/4)) * 4 = (c + 1/10 - t) * 4 - 1 := by ring
      have hnf : neededFuel (t + 1/4) c ≤ fuel := by
        unfold neededFuel at hf ⊢
        rw [heq, Int.ceil_sub_one]
        omega
      have hrec := ih (t + 1/4) c hnf
      simp only [schedLoopF, if_pos h]
      exact hrec
    · simp only [schedLoopF, if_neg h]
      exact h

/-- One scheduler firing while the music is playing: the notes continue
the arithmetic progression from the cursor, the cursor advances by a
quarter second per note, and the playing flag is untouched. -/
theorem schedulerFire_spec (s : SM) (c : ℚ) (hp : s.isMusicPlaying = true) :
    ∃ m : ℕ,
      (schedulerFire s c).1 = noteSeq s.nextNoteTime m ∧
      (schedulerFire s c).2.nextNoteTime = s.nextNoteTime + m * (1/4) ∧
      (schedulerFire s c).2.isMusicPlaying = true := by
  obtain ⟨m, hm1, hm2⟩ :=
    schedLoopF_range (neededFuel s.nextNoteTime c) s.nextNoteTime c
  refine ⟨m, ?_, ?_, ?_⟩
  · simp [schedulerFire, hp, hm1]
  · simp [schedulerFire, hp, hm2]
  · simp [schedulerFire, hp]

theorem schedulerFire_elts (s : SM) (c : ℚ) (hp : s.isMusicPlaying = true) :
    ∀ e ∈ (schedulerFire s c).1, e < c + 1/10 := by
  intro e he
  simp only [schedulerFire, hp] at he
  simp at he
  exact schedLoopF_elts_lt _ _ _ e he

/-- A run of scheduler firings starting while the music plays: all notes
of the run form one arithmetic progression with step 0.25 continuing
from the state's cursor, and each note lies strictly inside the
lookahead window of the firing that produced it. -/
theorem runScheduler_spec :
    ∀ (clocks : List ℚ) (s : SM), s.isMusicPlaying = true →
      ∃ m : ℕ,
        (runScheduler s clocks).1.map Prod.snd = noteSeq s.nextNoteTime m ∧
        (runScheduler s clocks).2.nextNoteTime = s.nextNoteTime + m * (1/4) ∧
        (runScheduler s clocks).2.isMusicPlaying = true ∧
        ∀ p ∈ (runScheduler s clocks).1, p.2 < p.1 + 1/10 := by
  intro clocks
  induction clocks with
  | nil =>
    intro s hp
    refine ⟨0, ?_, ?_, ?_, ?_⟩
    · simp [runScheduler, noteSeq]
    · simp [runScheduler]
    · simp [runScheduler, hp]
    · simp [runScheduler]
  | cons c cs ih =>
    intro s hp
    obtain ⟨m1, h1, h2, h3⟩ := schedulerFire_spec s c hp
    obtain ⟨m2, g1, g2, g3, g4⟩ := ih (schedulerFire s c).2 h3
    refine ⟨m1 + m2, ?_, ?_, ?_, ?_⟩
    · show (List.map (fun e => (c, e)) (schedulerFire s c).1 ++
        (runScheduler (schedulerFire s c).2 cs).1).map Prod.snd = _
      rw [List.map_append, List.map_map]
      have hsnd : (Prod.snd ∘ fun e : ℚ => (c, e)) = id := rfl
      rw [hsnd, List.map_id, h1, g1, h2, noteSeq_append]
    · show (runScheduler (schedulerFire s c).2 cs).2.nextNoteTime = _
      rw [g2, h2]
      push_cast
      ring
    · show (runScheduler (schedulerFire s c).2 cs).2.isMusicPlaying = true
      exact g3
    · show ∀ p ∈ (List.map (fun e => (c, e)) (schedulerFire s c).1 ++
        (runScheduler (schedulerFire s c).2 cs).1), p.2 < p.1 + 1/10
      intro p hp2
      rcases List.mem_append.1 hp2 with hA | hB
      · obtain ⟨e, he, rfl⟩ := List.mem_map.1 hA
        exact schedulerFire_elts s c hp e he
      · exact g4 p hB

/-- The `SoundManager` state right after `startMusic`'s two assignments
(`isMusicPlaying = true`, `nextNoteTime = currentTime`) and before its
synchronous `scheduler()` call, for a freshly constructed manager whose
clock reads `c0`. -/
def startMusicState (c0 : ℚ) : SM :=
  { smMk with isMusicPlaying := true, nextNoteTime := c0 }

/-- C5 counterexample: start the music with the audio clock reading 0;
the synchronous scheduler call (clock still 0) schedules its first note
with timestamp exactly 0 — at, not strictly after, the clock's current
time at the moment of scheduling, because `startMusic` initialises
`nextNoteTime` to `currentTime` itself.  This refutes the claim's
conjunct that no event is ever scheduled at or before the clock. -/
theorem C5_first_note_at_clock_counterexample :
    (startMusic smMk 0 0).1 = [0] ∧ ¬ ((0:ℚ) < 0) := by
  constructor
  · with_unfolding_all decide
  · norm_num

/-- C5 amended: from the state `startMusic` creates at clock `c0`, for
any sequence of scheduler-firing clock readings the scheduled note
timestamps are exactly the arithmetic progression `c0, c0 + 0.25, ...` —
strictly increasing, spaced by exactly the 0.25 s note interval — and
every note's timestamp is strictly below its firing's clock reading plus
the 0.1 s lookahead; but a note may be scheduled at or before the clock
reading itself (the first note is scheduled exactly at `c0`). -/
theorem C5_schedule_progression (c0 : ℚ) (clocks : List ℚ) :
    (∃ m : ℕ,
      (runScheduler (startMusicState c0) clocks).1.map Prod.snd = noteSeq c0 m) ∧
    (∀ i : ℕ,
      i + 1 < ((runScheduler (startMusicState c0) clocks).1.map Prod.snd).length →
      ((runScheduler (startMusicState c0) clocks).1.map Prod.snd).getD (i + 1) 0 =
        ((runScheduler (startMusicState c0) clocks).1.map Prod.snd).getD i 0 + 1/4) ∧
    (∀ p ∈ (runScheduler (startMusicState c0) clocks).1, p.2 < p.1 + 1/10) := by
  obtain ⟨m, h1, h2, h3, h4⟩ := runScheduler_spec clocks (startMusicState c0) rfl
  have hnext : (startMusicState c0).nextNoteTime = c0 := rfl
  rw [hnext] at h1 h2
  refine ⟨⟨m, h1⟩, ?_, h4⟩
  intro i hi
  rw [h1, noteSeq_length] at hi
  rw [h1, noteSeq_getD c0 m (i + 1) hi, noteSeq_getD c0 m i (by omega)]
  push_cast
  ring

end Racing
